import Mathlib

/-!
Shallow embedding of `src/index.js` of `lambda_image_processor`: an AWS
Lambda style pipeline that validates a request, creates per-invocation
input/output workspace directories, fetches an object from S3, runs an
image-processing collaborator, projects the primary derived key, uploads
the output directory back to S3, and removes the workspace directories.

The source is a bluebird promise chain; a rejection skips every later
`.then` handler (there is no `.catch` / `.finally`).  The embedding mirrors
that with an explicit sequence of matches on the results supplied by an
`Oracles` record (one entry per effectful collaborator call), while
recording every attempted external call in an `Effect` trace.
-/

namespace LambdaImageProcessor

/-- Model of a JavaScript / JSON value, used for the untyped `event` and
`opts` objects that the source validates with ajv. -/
inductive JVal where
  | jnull
  | jbool (b : Bool)
  | jnum (n : Int)
  | jstr (s : String)
  | jarr (elems : List JVal)
  | jobj (fields : List (String × JVal))

/-- Property access `o[k]` on a JavaScript object: `none` models
`undefined` (absent property, or access on a non-object). Objects bind
the first occurrence of a key. -/
def jGet : JVal → String → Option JVal
  | .jobj fields, k => fields.lookup k
  | _, _ => none

/-- String extraction for a property the schema has already guaranteed to
be a string; only evaluated on validated objects. -/
def getStr (j : JVal) (k : String) : String :=
  match jGet j k with
  | some (.jstr s) => s
  | _ => ""

/-- Drops the trailing `/` characters of a character list. -/
def trimTrailing (cs : List Char) : List Char :=
  (cs.reverse.dropWhile (· = '/')).reverse

/-- Node's `path.join` as used by the source: concatenation of the two
segments with a single separator, collapsing the slashes at the
boundary. (The source never feeds `.` / `..` segments, so no dot
normalization is modelled.) -/
def pathJoin (a b : String) : String :=
  if a = "" then b
  else if b = "" then a
  else ⟨trimTrailing a.data ++ '/' :: b.data.dropWhile (· = '/')⟩

/-- Accumulates the characters seen since the last `/`. -/
def lastComponent : List Char → List Char → List Char
  | [], acc => acc
  | c :: cs, acc =>
      if c = '/' then lastComponent cs [] else lastComponent cs (acc ++ [c])

/-- Node's `path.basename`: the final path component, ignoring trailing
separators. -/
def basename (p : String) : String :=
  ⟨lastComponent (trimTrailing p.data) []⟩

/-- One violated constraint found by schema validation, mirroring ajv's
error kinds for the keywords the two source schemas use. -/
inductive Violation where
  | notObject
  | additionalProperty (field : String)
  | missingRequired (field : String)
  | wrongType (field expected : String)
  | tooShort (field : String)
  | notInEnum (field : String)
deriving DecidableEq, Repr

/-- The property names the handler schema enumerates (src/index.js lines
81-100). -/
def eventFieldNames : List String :=
  ["processImageFunction", "s3_key", "s3_bucket_name", "s3_output_dir", "versions"]

/-- The `required` list of the handler schema (src/index.js line 80). -/
def requiredFieldNames : List String :=
  ["processImageFunction", "s3_key", "s3_bucket_name", "s3_output_dir"]

/-- Validation of one property against `{ type: string, minLength: 1 }`;
an absent property yields no violation (presence is `required`'s job). -/
def checkStringMin1 (j : JVal) (field : String) : List Violation :=
  match jGet j field with
  | none => []
  | some (.jstr s) => if s.length = 0 then [.tooShort field] else []
  | some _ => [.wrongType field "string"]

/-- Validation of the property `processImageFunction` against
`{ enum: [processImage3, processImage4] }`. -/
def checkEnum (j : JVal) : List Violation :=
  match jGet j "processImageFunction" with
  | none => []
  | some (.jstr "processImage3") => []
  | some (.jstr "processImage4") => []
  | some _ => [.notInEnum "processImageFunction"]

/-- Validation of the property `versions` against `{ type: array }`. -/
def checkVersions (j : JVal) : List Violation :=
  match jGet j "versions" with
  | none => []
  | some (.jarr _) => []
  | some _ => [.wrongType "versions" "array"]

/-- The full set of constraints of the handler's request schema
(src/index.js lines 77-101) violated by `j`: type object,
`additionalProperties: false`, the four `required` fields, the enum on
`processImageFunction`, `minLength: 1` strings, and `versions: array`.
Empty iff the request is valid. -/
def validateEvent (j : JVal) : List Violation :=
  match j with
  | .jobj fields =>
      (fields.filterMap fun kv =>
        if eventFieldNames.contains kv.1 then none
        else some (Violation.additionalProperty kv.1))
      ++ (requiredFieldNames.filterMap fun k =>
        if (jGet j k).isSome then none else some (Violation.missingRequired k))
      ++ checkEnum j
      ++ checkStringMin1 j "s3_key"
      ++ checkStringMin1 j "s3_bucket_name"
      ++ checkStringMin1 j "s3_output_dir"
      ++ checkVersions j
  | _ => [.notObject]

/-- Modelled from ajv's documented behaviour for the option set the source
constructs (`ajv({ removeAdditional: false })`, src/index.js lines 16-18):
`allErrors` defaults to `false`, so validation stops at, and `ajv.errors`
carries, only the first violation found. -/
def reportedErrors (vs : List Violation) : List Violation :=
  vs.take 1

/-- The full set of constraints of the configuration schema
(src/index.js lines 32-41) violated by `opts`: type object,
`additionalProperties: false`, and `upload_folder` a string with
`minLength: 1`. -/
def validateConfig (j : JVal) : List Violation :=
  match j with
  | .jobj fields =>
      (fields.filterMap fun kv =>
        if kv.1 = "upload_folder" then none
        else some (Violation.additionalProperty kv.1))
      ++ checkStringMin1 j "upload_folder"
  | _ => [.notObject]

/-- Errors as they surface from the promise chain: the `Error` carrying
`ajv.errors` thrown by the validation steps, a raw collaborator or
filesystem error propagated verbatim, and the `TypeError` raised when the
processing response lacks the expected key (`resp[opts.file_name][0]` on
`undefined`, or `path.join` applied to `undefined`). -/
inductive JsErr where
  | ajv (errs : List Violation)
  | raw (msg : String)
  | typeError (msg : String)
deriving DecidableEq, Repr

/-- The default module configuration (src/index.js lines 20-22). -/
def defaultUploadFolder : String := "/tmp/images/"

/-- Embedding of `exports.config` (src/index.js lines 31-62): validates
`opts` against the configuration schema; on failure throws the ajv error
and leaves the stored `upload_folder` unchanged; on success assigns
`module_config.upload_folder = opts.upload_folder` when that value is
truthy (a non-empty string), otherwise leaves it unchanged.  Returns the
call's outcome paired with the configuration after the call. -/
def configCall (cfg : String) (opts : JVal) : Except JsErr Bool × String :=
  if (validateConfig opts).isEmpty then
    match jGet opts "upload_folder" with
    | some (.jstr s) => if s.length = 0 then (.ok true, cfg) else (.ok true, s)
    | _ => (.ok true, cfg)
  else
    (.error (.ajv (reportedErrors (validateConfig opts))), cfg)

/-- A processing response: the mapping from the original file name to the
ordered list of derived file names returned by the image-processing
collaborator (see the FORMAT comment at src/index.js lines 201-210). -/
abbrev Manifest := List (String × List String)

/-- Results of the effectful collaborator and filesystem calls the handler
makes, one field per call site, in chain order.  `Except.error` carries
the raw error the collaborator rejects with; the source propagates such
errors verbatim (no wrapping, no `.catch`). -/
structure Oracles where
  mkdirInput : Except String Unit
  mkdirOutput : Except String Unit
  s3Get : Except String Unit
  writeFile : Except String Unit
  process : Except String Manifest
  upload : Except String Unit
  rimrafInput : Except String Unit
  rimrafOutput : Except String Unit

/-- One attempted external call of the handler, recorded in order; a call
is recorded whether it succeeds or fails (the attempt was made). -/
inductive Effect where
  | mkdir (dir : String)
  | s3GetObject (bucket key : String)
  | fsWrite (filePath : String)
  | runProcess (fn inputDir outputDir : String) (versions : Option JVal)
  | s3UploadFiles (dir bucket outputDir acl : String) (cacheControl : Nat)
  | rimraf (dir : String)

/-- The `data` object of a successful response. -/
structure RVData where
  key : String
deriving DecidableEq, Repr

/-- The value passed to `context.succeed` on success (src/index.js lines
212-215 and 279): exactly `{ data: { key } }`. -/
structure ReturnValue where
  data : RVData
deriving DecidableEq, Repr

/-- The observable outcome of one handler invocation: the value the
promise chain settles with, the ordered trace of attempted external
calls, and the module configuration after the run. -/
structure RunResult where
  outcome : Except JsErr ReturnValue
  trace : List Effect
  config : String

/-- Embedding of the result projection (src/index.js lines 213-215):
`path.join(event.s3_output_dir, resp[opts.file_name][0])`.  A missing
manifest entry makes `resp[opts.file_name]` `undefined` and indexing it
throws a `TypeError`; an empty entry makes the index `undefined` and
`path.join` throws a `TypeError`. -/
def projectKey (resp : Manifest) (fileName outputDir : String) : Except JsErr String :=
  match resp.lookup fileName with
  | none => .error (.typeError "Cannot read property 0 of undefined")
  | some [] => .error (.typeError "Path must be a string. Received undefined")
  | some (v :: _) => .ok (pathJoin outputDir v)

/-- Embedding of `exports.handler` (src/index.js lines 75-282).  `cfg` is
`module_config.upload_folder` at entry; `cuidIn` / `cuidOut` are the two
fresh `cuid()` tokens.  The stages run in the source's chain order —
validate, mkdirp input, mkdirp output, S3 getObject, write the fetched
bytes, run the processing function, project the result key, upload the
output directory, rimraf input, rimraf output, `context.succeed` — and a
failure at any stage rejects the chain, skipping every later stage
(including cleanup: there is no `.catch` or `.finally` in the source). -/
def handler (cfg : String) (event : JVal) (cuidIn cuidOut : String)
    (o : Oracles) : RunResult :=
  let input_dir := pathJoin cfg ("/input-" ++ cuidIn ++ "/")
  let output_dir := pathJoin cfg ("/output-" ++ cuidOut ++ "/")
  if (validateEvent event).isEmpty then
    match o.mkdirInput with
    | .error e => ⟨.error (.raw e), [.mkdir input_dir], cfg⟩
    | .ok _ =>
      match o.mkdirOutput with
      | .error e => ⟨.error (.raw e), [.mkdir input_dir, .mkdir output_dir], cfg⟩
      | .ok _ =>
        let file_name := basename (getStr event "s3_key")
        let bucket := getStr event "s3_bucket_name"
        let key := getStr event "s3_key"
        let out_dir := getStr event "s3_output_dir"
        let fn := getStr event "processImageFunction"
        let tr2 := [Effect.mkdir input_dir, Effect.mkdir output_dir]
        match o.s3Get with
        | .error e => ⟨.error (.raw e), tr2 ++ [.s3GetObject bucket key], cfg⟩
        | .ok _ =>
          let tr3 := tr2 ++ [Effect.s3GetObject bucket key,
            Effect.fsWrite (pathJoin input_dir file_name)]
          match o.writeFile with
          | .error e => ⟨.error (.raw e), tr3, cfg⟩
          | .ok _ =>
            let tr4 := tr3 ++ [Effect.runProcess fn input_dir output_dir
              (jGet event "versions")]
            match o.process with
            | .error e => ⟨.error (.raw e), tr4, cfg⟩
            | .ok resp =>
              match projectKey resp file_name out_dir with
              | .error e => ⟨.error e, tr4, cfg⟩
              | .ok k =>
                let tr5 := tr4 ++ [Effect.s3UploadFiles output_dir bucket
                  out_dir "public-read" 15552000]
                match o.upload with
                | .error e => ⟨.error (.raw e), tr5, cfg⟩
                | .ok _ =>
                  let tr6 := tr5 ++ [Effect.rimraf input_dir]
                  match o.rimrafInput with
                  | .error e => ⟨.error (.raw e), tr6, cfg⟩
                  | .ok _ =>
                    let tr7 := tr6 ++ [Effect.rimraf output_dir]
                    match o.rimrafOutput with
                    | .error e => ⟨.error (.raw e), tr7, cfg⟩
                    | .ok _ => ⟨.ok ⟨⟨k⟩⟩, tr7, cfg⟩
  else
    ⟨.error (.ajv (reportedErrors (validateEvent event))), [], cfg⟩

/-- Recognizes the directory-removal effect. -/
def Effect.isRim : Effect → Bool
  | .rimraf _ => true
  | _ => false

/-- Recognizes the processing-invocation effect. -/
def Effect.isProc : Effect → Bool
  | .runProcess _ _ _ _ => true
  | _ => false

/-- Recognizes the upload effect. -/
def Effect.isUp : Effect → Bool
  | .s3UploadFiles _ _ _ _ _ => true
  | _ => false

/-- A request matching the spec's worked example: source key
`album/photo.jpg`, bucket `my-bucket`, destination `out/2024`. -/
def sampleEvent : JVal := .jobj [
  ("processImageFunction", .jstr "processImage3"),
  ("s3_key", .jstr "album/photo.jpg"),
  ("s3_bucket_name", .jstr "my-bucket"),
  ("s3_output_dir", .jstr "out/2024")]

/-- The manifest of the spec's worked example. -/
def sampleManifest : Manifest := [("photo.jpg", ["photo_w800.jpg", "photo_w400.jpg"])]

/-- Oracles for a run in which every collaborator call succeeds and the
processing step returns `sampleManifest`. -/
def allOkOracles : Oracles :=
  ⟨.ok (), .ok (), .ok (), .ok (), .ok sampleManifest, .ok (), .ok (), .ok ()⟩

/-- Extracts the arguments of an upload effect: directory, bucket,
destination directory, ACL, cache directive. -/
def Effect.uploadArgs : Effect → Option (String × String × String × String × Nat)
  | .s3UploadFiles d b od a c => some (d, b, od, a, c)
  | _ => none

/-- Tests whether an oracle call succeeded. -/
def exOk : Except String Unit → Bool
  | .ok _ => true
  | .error _ => false

/-- Whether the pipeline gets past the upload stage, i.e. the success
path reaches the cleanup step: validation, both directory creations,
fetch, file write, processing (with a manifest entry for the original
file name) and upload all succeed. -/
def reachesCleanup (event : JVal) (o : Oracles) : Bool :=
  (validateEvent event).isEmpty && exOk o.mkdirInput && exOk o.mkdirOutput &&
  exOk o.s3Get && exOk o.writeFile &&
  (match o.process with
   | .error _ => false
   | .ok resp =>
     match projectKey resp (basename (getStr event "s3_key"))
         (getStr event "s3_output_dir") with
     | .ok _ => true
     | .error _ => false) &&
  exOk o.upload

/-- The spec's wording (§4.2 and claim C3) of a conforming request: only
the enumerated fields, the four required fields present with non-empty
string values, the processing mode drawn from the supported set, and
`versions` absent or an array.  Stated from the spec, to be compared with
`validateEvent`, the embedding of the source's schema. -/
def conformingRequest (j : JVal) : Prop :=
  (∃ fields, j = JVal.jobj fields ∧ ∀ kv ∈ fields, kv.1 ∈ eventFieldNames) ∧
  (∃ s, jGet j "processImageFunction" = some (.jstr s) ∧
    (s = "processImage3" ∨ s = "processImage4")) ∧
  (∃ s, jGet j "s3_key" = some (.jstr s) ∧ s ≠ "") ∧
  (∃ s, jGet j "s3_bucket_name" = some (.jstr s) ∧ s ≠ "") ∧
  (∃ s, jGet j "s3_output_dir" = some (.jstr s) ∧ s ≠ "") ∧
  (jGet j "versions" = none ∨ ∃ elems, jGet j "versions" = some (.jarr elems))

/-- The spec's wording (§4.1 and claim C7) of acceptable configuration
options: an object with no field other than the workspace root, which
when present is a non-empty string.  Stated from the spec, to be
compared with `validateConfig`, the embedding of the source's schema. -/
def conformingConfig (j : JVal) : Prop :=
  (∃ fields, j = JVal.jobj fields ∧ ∀ kv ∈ fields, kv.1 = "upload_folder") ∧
  (jGet j "upload_folder" = none ∨
    ∃ s, jGet j "upload_folder" = some (.jstr s) ∧ s ≠ "")

/-- C1: for every successful invocation, the result returned to the caller
is exactly `{ data: { key: K } }` where `K` is the path-join of the
request's `s3_output_dir` with the first element of the manifest entry
keyed by the base name of the source key; only the first element of that
sequence is used, whatever its length. -/
theorem handler_success_returns_first_derived_key
    (cfg : String) (event : JVal) (cuidIn cuidOut : String) (o : Oracles)
    (man : Manifest) (v : String) (vs : List String) (rv : ReturnValue)
    (hp : o.process = .ok man)
    (hl : man.lookup (basename (getStr event "s3_key")) = some (v :: vs))
    (hok : (handler cfg event cuidIn cuidOut o).outcome = .ok rv) :
    rv = ⟨⟨pathJoin (getStr event "s3_output_dir") v⟩⟩ := by
  by_cases hv : (validateEvent event).isEmpty
  · simp only [handler, hv, if_true, hp, projectKey, hl] at hok
    repeat' split at hok
    all_goals simp_all
  · simp [handler, hv] at hok

/-- Witness for C1 at the spec's worked example. -/
theorem handler_success_returns_first_derived_key_witness :
    (⟨⟨"out/2024/photo_w800.jpg"⟩⟩ : ReturnValue) =
      ⟨⟨pathJoin (getStr sampleEvent "s3_output_dir") "photo_w800.jpg"⟩⟩ :=
  handler_success_returns_first_derived_key "/tmp/images/" sampleEvent "c1" "c2"
    allOkOracles sampleManifest "photo_w800.jpg" ["photo_w400.jpg"]
    ⟨⟨"out/2024/photo_w800.jpg"⟩⟩ rfl rfl rfl

/-- C4: when the request fails validation, the pipeline rejects with the
validation error before any side effect: the trace of attempted external
calls is empty (no directory creation, no fetch, no processing, no
upload). -/
theorem invalid_request_no_side_effects
    (cfg : String) (event : JVal) (cuidIn cuidOut : String) (o : Oracles)
    (h : validateEvent event ≠ []) :
    (handler cfg event cuidIn cuidOut o).trace = [] ∧
    (handler cfg event cuidIn cuidOut o).outcome =
      .error (.ajv (reportedErrors (validateEvent event))) := by
  have hb : (validateEvent event).isEmpty = false := by
    cases hve : validateEvent event with
    | nil => exact absurd hve h
    | cons a l => rfl
  simp [handler, hb]

/-- Witness for C4 at the empty request object. -/
theorem invalid_request_no_side_effects_witness :
    (handler "/tmp/images/" (.jobj []) "c1" "c2" allOkOracles).trace = [] ∧
    (handler "/tmp/images/" (.jobj []) "c1" "c2" allOkOracles).outcome =
      .error (.ajv (reportedErrors (validateEvent (.jobj [])))) :=
  invalid_request_no_side_effects "/tmp/images/" (.jobj []) "c1" "c2" allOkOracles
    (by decide)

/-- C5: when the ingress fetch fails, the pipeline aborts with exactly
that failure; the trace ends at the fetch attempt, so the processing
engine is never invoked and no upload is attempted. -/
theorem fetch_failure_aborts_pipeline
    (cfg : String) (event : JVal) (cuidIn cuidOut : String) (o : Oracles)
    (msg : String)
    (hv : validateEvent event = [])
    (h1 : o.mkdirInput = .ok ()) (h2 : o.mkdirOutput = .ok ())
    (hf : o.s3Get = .error msg) :
    (handler cfg event cuidIn cuidOut o).outcome = .error (.raw msg) ∧
    (handler cfg event cuidIn cuidOut o).trace =
      [.mkdir (pathJoin cfg ("/input-" ++ cuidIn ++ "/")),
       .mkdir (pathJoin cfg ("/output-" ++ cuidOut ++ "/")),
       .s3GetObject (getStr event "s3_bucket_name") (getStr event "s3_key")] ∧
    (handler cfg event cuidIn cuidOut o).trace.filter Effect.isProc = [] ∧
    (handler cfg event cuidIn cuidOut o).trace.filter Effect.isUp = [] := by
  obtain ⟨mi, mo, fe, wr, pr, up, ri, ro⟩ := o
  replace h1 : mi = Except.ok () := h1
  replace h2 : mo = Except.ok () := h2
  replace hf : fe = Except.error msg := hf
  subst h1; subst h2; subst hf
  simp [handler, hv, Effect.isProc, Effect.isUp, List.filter]

/-- Witness for C5: a fetch rejected with `NoSuchKey`. -/
theorem fetch_failure_aborts_pipeline_witness :
    (handler "/tmp/images/" sampleEvent "c1" "c2"
        { allOkOracles with s3Get := .error "NoSuchKey" }).outcome =
      .error (.raw "NoSuchKey") :=
  (fetch_failure_aborts_pipeline "/tmp/images/" sampleEvent "c1" "c2"
    { allOkOracles with s3Get := .error "NoSuchKey" } "NoSuchKey"
    (by decide) rfl rfl rfl).1

/-- C9: when the processing step succeeds but its manifest lacks an entry
keyed by the original file's base name, the invocation fails (with the
`TypeError` raised by indexing `undefined`) and no success result is
returned to the caller. -/
theorem missing_manifest_entry_fails
    (cfg : String) (event : JVal) (cuidIn cuidOut : String) (o : Oracles)
    (man : Manifest)
    (hv : validateEvent event = [])
    (h1 : o.mkdirInput = .ok ()) (h2 : o.mkdirOutput = .ok ())
    (h3 : o.s3Get = .ok ()) (h4 : o.writeFile = .ok ())
    (hp : o.process = .ok man)
    (hl : man.lookup (basename (getStr event "s3_key")) = none) :
    (handler cfg event cuidIn cuidOut o).outcome =
      .error (.typeError "Cannot read property 0 of undefined") ∧
    ∀ rv : ReturnValue, (handler cfg event cuidIn cuidOut o).outcome ≠ .ok rv := by
  obtain ⟨mi, mo, fe, wr, pr, up, ri, ro⟩ := o
  replace h1 : mi = Except.ok () := h1
  replace h2 : mo = Except.ok () := h2
  replace h3 : fe = Except.ok () := h3
  replace h4 : wr = Except.ok () := h4
  replace hp : pr = Except.ok man := hp
  subst h1; subst h2; subst h3; subst h4; subst hp
  simp [handler, hv, projectKey, hl]

/-- Witness for C9: the manifest is keyed by a different file name. -/
theorem missing_manifest_entry_fails_witness :
    (handler "/tmp/images/" sampleEvent "c1" "c2"
        { allOkOracles with process := .ok [("other.jpg", ["other_w800.jpg"])] }).outcome =
      .error (.typeError "Cannot read property 0 of undefined") :=
  (missing_manifest_entry_fails "/tmp/images/" sampleEvent "c1" "c2"
    { allOkOracles with process := .ok [("other.jpg", ["other_w800.jpg"])] }
    [("other.jpg", ["other_w800.jpg"])]
    (by decide) rfl rfl rfl rfl rfl (by decide)).1

/-- C8: every upload the handler ever attempts is requested with exactly
the output workspace directory, the request's bucket, the request's
destination directory, the `public-read` ACL, and the 15552000-second
cache directive (src/index.js lines 225-231). -/
theorem upload_uses_fixed_policy
    (cfg : String) (event : JVal) (cuidIn cuidOut : String) (o : Oracles) :
    ∀ args ∈ (handler cfg event cuidIn cuidOut o).trace.filterMap Effect.uploadArgs,
      args = (pathJoin cfg ("/output-" ++ cuidOut ++ "/"),
              getStr event "s3_bucket_name", getStr event "s3_output_dir",
              "public-read", 15552000) := by
  intro args h
  by_cases hv : (validateEvent event).isEmpty
  · simp only [handler, hv, if_true] at h
    repeat' split at h
    all_goals simp_all [Effect.uploadArgs]
  · simp [handler, hv] at h

/-- Witness for C8 on a fully successful run. -/
theorem upload_uses_fixed_policy_witness :
    ("/tmp/images/output-c2/", "my-bucket", "out/2024", "public-read", 15552000) =
      (pathJoin "/tmp/images/" ("/output-" ++ "c2" ++ "/"),
       getStr sampleEvent "s3_bucket_name", getStr sampleEvent "s3_output_dir",
       "public-read", 15552000) :=
  upload_uses_fixed_policy "/tmp/images/" sampleEvent "c1" "c2" allOkOracles
    ("/tmp/images/output-c2/", "my-bucket", "out/2024", "public-read", 15552000)
    (by decide)

/-- C2 (amended): directory removal is attempted only on the success
path.  When every stage through the upload succeeds, removal of the input
directory and then the output directory is attempted exactly once each
(the output removal only if the input removal succeeded); on any earlier
failure the rejection skips the cleanup step entirely, so no removal is
attempted. -/
theorem cleanup_attempted_only_after_success
    (cfg : String) (event : JVal) (cuidIn cuidOut : String) (o : Oracles) :
    (handler cfg event cuidIn cuidOut o).trace.filter Effect.isRim =
      (if reachesCleanup event o then
        (if exOk o.rimrafInput then
          [.rimraf (pathJoin cfg ("/input-" ++ cuidIn ++ "/")),
           .rimraf (pathJoin cfg ("/output-" ++ cuidOut ++ "/"))]
         else [.rimraf (pathJoin cfg ("/input-" ++ cuidIn ++ "/"))])
       else []) := by
  by_cases hv : (validateEvent event).isEmpty
  · simp only [handler, reachesCleanup, hv, if_true, Bool.true_and]
    repeat' split
    all_goals simp_all [exOk, Effect.isRim, List.filter]
  · simp [handler, reachesCleanup, hv]

/-- Counterexample to C2 as stated: on a fetch failure the pipeline
reaches its failed terminal state, yet no directory removal is attempted
(the promise chain has no rejection handler, so cleanup is skipped). -/
theorem cleanup_skipped_on_failure_counterexample :
    (handler "/tmp/images/" sampleEvent "c1" "c2"
        { allOkOracles with s3Get := .error "AccessDenied" }).outcome =
      .error (.raw "AccessDenied") ∧
    (handler "/tmp/images/" sampleEvent "c1" "c2"
        { allOkOracles with s3Get := .error "AccessDenied" }).trace.filter
      Effect.isRim = [] :=
  ⟨rfl, rfl⟩

/-- C6 (amended): a cleanup failure after a fully successful pipeline is
not demoted: it becomes the invocation's reported failure, and the
already-determined success result is not returned.  (When an earlier
stage failed, cleanup is never attempted, so the earlier failure is
trivially what is reported.) -/
theorem cleanup_failure_overrides_success
    (cfg : String) (event : JVal) (cuidIn cuidOut : String) (o : Oracles)
    (man : Manifest) (v : String) (vs : List String) (m : String)
    (hv : validateEvent event = [])
    (h1 : o.mkdirInput = .ok ()) (h2 : o.mkdirOutput = .ok ())
    (h3 : o.s3Get = .ok ()) (h4 : o.writeFile = .ok ())
    (hp : o.process = .ok man)
    (hl : man.lookup (basename (getStr event "s3_key")) = some (v :: vs))
    (hu : o.upload = .ok ())
    (hr : o.rimrafInput = .error m ∨
          (o.rimrafInput = .ok () ∧ o.rimrafOutput = .error m)) :
    (handler cfg event cuidIn cuidOut o).outcome = .error (.raw m) ∧
    ∀ rv : ReturnValue, (handler cfg event cuidIn cuidOut o).outcome ≠ .ok rv := by
  obtain ⟨mi, mo, fe, wr, pr, up, ri, ro⟩ := o
  replace h1 : mi = Except.ok () := h1
  replace h2 : mo = Except.ok () := h2
  replace h3 : fe = Except.ok () := h3
  replace h4 : wr = Except.ok () := h4
  replace hp : pr = Except.ok man := hp
  replace hu : up = Except.ok () := hu
  subst h1; subst h2; subst h3; subst h4; subst hp; subst hu
  rcases hr with hr | ⟨hr1, hr2⟩
  · replace hr : ri = Except.error m := hr
    subst hr
    simp [handler, hv, projectKey, hl]
  · replace hr1 : ri = Except.ok () := hr1
    replace hr2 : ro = Except.error m := hr2
    subst hr1; subst hr2
    simp [handler, hv, projectKey, hl]

/-- Counterexample to C6 as stated: with every pipeline stage successful
and only the input-directory removal failing, the caller receives the
cleanup error instead of the already-determined success result; flipping
that single oracle back to success yields the success result. -/
theorem cleanup_failure_masks_success_counterexample :
    (handler "/tmp/images/" sampleEvent "c1" "c2"
        { allOkOracles with rimrafInput := .error "EACCES" }).outcome =
      .error (.raw "EACCES") ∧
    (handler "/tmp/images/" sampleEvent "c1" "c2" allOkOracles).outcome =
      .ok ⟨⟨"out/2024/photo_w800.jpg"⟩⟩ :=
  ⟨rfl, rfl⟩

/-- C10: the handler never mutates the module configuration: the stored
upload folder is identical before and after every invocation, on success
and on every failure path. -/
theorem handler_preserves_config
    (cfg : String) (event : JVal) (cuidIn cuidOut : String) (o : Oracles) :
    (handler cfg event cuidIn cuidOut o).config = cfg := by
  simp only [handler]
  repeat' split
  all_goals rfl

lemma string_length_eq_zero_iff (s : String) : s.length = 0 ↔ s = "" := by
  constructor
  · intro h
    cases s with
    | mk data => cases data with
      | nil => rfl
      | cons c cs => simp [String.length] at h
  · intro h; subst h; rfl

lemma checkStringMin1_eq_nil (j : JVal) (field : String) :
    checkStringMin1 j field = [] ↔
      (jGet j field = none ∨ ∃ s, jGet j field = some (.jstr s) ∧ s ≠ "") := by
  unfold checkStringMin1
  split
  · simp_all
  · rename_i s heq
    by_cases hs : s.length = 0 <;>
      simp_all [string_length_eq_zero_iff]
  · simp_all

lemma checkEnum_eq_nil (j : JVal) :
    checkEnum j = [] ↔
      (jGet j "processImageFunction" = none ∨
       jGet j "processImageFunction" = some (.jstr "processImage3") ∨
       jGet j "processImageFunction" = some (.jstr "processImage4")) := by
  unfold checkEnum
  split <;> simp_all

lemma checkVersions_eq_nil (j : JVal) :
    checkVersions j = [] ↔
      (jGet j "versions" = none ∨ ∃ elems, jGet j "versions" = some (.jarr elems)) := by
  unfold checkVersions
  split <;> simp_all

lemma requiredSeg_eq_nil (j : JVal) :
    (requiredFieldNames.filterMap fun k =>
      if (jGet j k).isSome then none else some (Violation.missingRequired k)) = [] ↔
      ((jGet j "processImageFunction").isSome = true ∧ (jGet j "s3_key").isSome = true ∧
       (jGet j "s3_bucket_name").isSome = true ∧ (jGet j "s3_output_dir").isSome = true) := by
  by_cases h1 : (jGet j "processImageFunction").isSome <;>
  by_cases h2 : (jGet j "s3_key").isSome <;>
  by_cases h3 : (jGet j "s3_bucket_name").isSome <;>
  by_cases h4 : (jGet j "s3_output_dir").isSome <;>
  simp [requiredFieldNames, h1, h2, h3, h4]

lemma addlSeg_eq_nil (fields : List (String × JVal)) :
    (fields.filterMap fun kv =>
      if eventFieldNames.contains kv.1 then none
      else some (Violation.additionalProperty kv.1)) = [] ↔
      ∀ kv ∈ fields, kv.1 ∈ eventFieldNames := by
  rw [List.filterMap_eq_nil_iff]
  constructor
  · intro h kv hkv
    simpa using h kv hkv
  · intro h kv hkv
    simpa using h kv hkv

lemma validateEvent_eq_nil_iff (j : JVal) :
    validateEvent j = [] ↔ conformingRequest j := by
  cases j with
  | jobj fields =>
    simp only [validateEvent, List.append_eq_nil]
    rw [addlSeg_eq_nil, requiredSeg_eq_nil, checkEnum_eq_nil,
      checkStringMin1_eq_nil, checkStringMin1_eq_nil, checkStringMin1_eq_nil,
      checkVersions_eq_nil]
    unfold conformingRequest
    constructor
    · rintro ⟨⟨⟨⟨⟨⟨hA, p1, p2, p3, p4⟩, hC⟩, hK⟩, hB⟩, hO⟩, hV⟩
      refine ⟨⟨fields, rfl, hA⟩, ?_, ?_, ?_, ?_, hV⟩
      · rcases hC with hc | hc | hc
        · rw [hc] at p1; simp at p1
        · exact ⟨"processImage3", hc, Or.inl rfl⟩
        · exact ⟨"processImage4", hc, Or.inr rfl⟩
      · rcases hK with hk | ⟨s, hs, hne⟩
        · rw [hk] at p2; simp at p2
        · exact ⟨s, hs, hne⟩
      · rcases hB with hb | ⟨s, hs, hne⟩
        · rw [hb] at p3; simp at p3
        · exact ⟨s, hs, hne⟩
      · rcases hO with ho | ⟨s, hs, hne⟩
        · rw [ho] at p4; simp at p4
        · exact ⟨s, hs, hne⟩
    · rintro ⟨⟨fields2, heq, hA⟩, ⟨sm, hsm, hmode⟩, ⟨s1, hs1, hn1⟩,
        ⟨s2, hs2, hn2⟩, ⟨s3, hs3, hn3⟩, hV⟩
      injection heq with hf
      subst hf
      refine ⟨⟨⟨⟨⟨⟨hA, ?_, ?_, ?_, ?_⟩, ?_⟩, Or.inr ⟨s1, hs1, hn1⟩⟩,
        Or.inr ⟨s2, hs2, hn2⟩⟩, Or.inr ⟨s3, hs3, hn3⟩⟩, hV⟩
      · simp [hsm]
      · simp [hs1]
      · simp [hs2]
      · simp [hs3]
      · rcases hmode with rfl | rfl
        · exact Or.inr (Or.inl hsm)
        · exact Or.inr (Or.inr hsm)
  | jnull => simp [validateEvent, conformingRequest, jGet]
  | jbool b => simp [validateEvent, conformingRequest, jGet]
  | jnum n => simp [validateEvent, conformingRequest, jGet]
  | jstr s => simp [validateEvent, conformingRequest, jGet]
  | jarr elems => simp [validateEvent, conformingRequest, jGet]


lemma configAddlSeg_eq_nil (fields : List (String × JVal)) :
    (fields.filterMap fun kv =>
      if kv.1 = "upload_folder" then none
      else some (Violation.additionalProperty kv.1)) = [] ↔
      ∀ kv ∈ fields, kv.1 = "upload_folder" := by
  rw [List.filterMap_eq_nil_iff]
  constructor
  · intro h kv hkv
    have hx := h kv hkv
    by_cases hc : kv.1 = "upload_folder"
    · exact hc
    · simp [hc] at hx
  · intro h kv hkv
    simp [h kv hkv]

lemma validateConfig_eq_nil_iff (j : JVal) :
    validateConfig j = [] ↔ conformingConfig j := by
  cases j with
  | jobj fields =>
    simp only [validateConfig, List.append_eq_nil]
    rw [configAddlSeg_eq_nil, checkStringMin1_eq_nil]
    unfold conformingConfig
    constructor
    · rintro ⟨hA, hU⟩
      exact ⟨⟨fields, rfl, hA⟩, hU⟩
    · rintro ⟨⟨fields2, heq, hA⟩, hU⟩
      injection heq with hf
      subst hf
      exact ⟨hA, hU⟩
  | jnull => simp [validateConfig, conformingConfig, jGet]
  | jbool b => simp [validateConfig, conformingConfig, jGet]
  | jnum n => simp [validateConfig, conformingConfig, jGet]
  | jstr s => simp [validateConfig, conformingConfig, jGet]
  | jarr elems => simp [validateConfig, conformingConfig, jGet]

/-- C3 (amended): request validation accepts exactly the conforming
requests — all four required fields present with non-empty string values,
`processImageFunction` in the supported set, `versions` absent or an
array, and no unknown fields; a non-conforming request is rejected with
an error carrying a non-empty violation list that holds only the first
violation found (ajv's `allErrors` option defaults to `false`), not
necessarily the full set. -/
theorem validation_accepts_conforming_rejects_nonconforming
    (cfg : String) (event : JVal) (cuidIn cuidOut : String) (o : Oracles) :
    (conformingRequest event ↔ validateEvent event = []) ∧
    (¬ conformingRequest event →
      (handler cfg event cuidIn cuidOut o).outcome =
        .error (.ajv (reportedErrors (validateEvent event))) ∧
      reportedErrors (validateEvent event) ≠ [] ∧
      (reportedErrors (validateEvent event)).length = 1) := by
  refine ⟨(validateEvent_eq_nil_iff event).symm, fun hnc => ?_⟩
  have hne : validateEvent event ≠ [] :=
    fun h => hnc ((validateEvent_eq_nil_iff event).mp h)
  have hb : (validateEvent event).isEmpty = false := by
    cases hve : validateEvent event with
    | nil => exact absurd hve hne
    | cons a l => rfl
  refine ⟨by simp [handler, hb], ?_, ?_⟩ <;>
    (unfold reportedErrors
     cases hve : validateEvent event with
     | nil => exact absurd hve hne
     | cons a l => simp)

/-- Witness for C3 at the empty request object, which is not conforming. -/
theorem validation_accepts_conforming_rejects_nonconforming_witness :
    (handler "/tmp/images/" (.jobj []) "c1" "c2" allOkOracles).outcome =
      .error (.ajv (reportedErrors (validateEvent (.jobj [])))) :=
  ((validation_accepts_conforming_rejects_nonconforming "/tmp/images/" (.jobj [])
      "c1" "c2" allOkOracles).2
    (fun hc => by
      obtain ⟨-, ⟨s, hs, -⟩, -⟩ := hc
      simp [jGet] at hs)).1

/-- Counterexample to C3 as stated: the empty request object violates all
four required-field constraints, yet the error it is rejected with
carries only the first violation, not the full set of four. -/
theorem validation_full_error_set_counterexample :
    validateEvent (.jobj []) =
      [.missingRequired "processImageFunction", .missingRequired "s3_key",
       .missingRequired "s3_bucket_name", .missingRequired "s3_output_dir"] ∧
    (handler "/tmp/images/" (.jobj []) "c1" "c2" allOkOracles).outcome =
      .error (.ajv [.missingRequired "processImageFunction"]) :=
  ⟨by decide, rfl⟩

/-- C7: configuration validation accepts exactly the conforming option
objects (no field besides the workspace root; a non-empty string when
present); on failure the call rejects with the structured non-empty
violation list and the stored root is unchanged; on success a present
root replaces the stored value, an absent root leaves it untouched. -/
theorem config_call_spec (cfg : String) (opts : JVal) :
    (conformingConfig opts ↔ validateConfig opts = []) ∧
    (validateConfig opts ≠ [] →
      (configCall cfg opts).1 =
        .error (.ajv (reportedErrors (validateConfig opts))) ∧
      reportedErrors (validateConfig opts) ≠ [] ∧
      (configCall cfg opts).2 = cfg) ∧
    (validateConfig opts = [] →
      (configCall cfg opts).1 = .ok true ∧
      (∀ s, jGet opts "upload_folder" = some (.jstr s) →
        (configCall cfg opts).2 = s) ∧
      (jGet opts "upload_folder" = none → (configCall cfg opts).2 = cfg)) := by
  refine ⟨(validateConfig_eq_nil_iff opts).symm, fun hne => ?_, fun hnil => ?_⟩
  · have hb : (validateConfig opts).isEmpty = false := by
      cases hve : validateConfig opts with
      | nil => exact absurd hve hne
      | cons a l => rfl
    refine ⟨by simp [configCall, hb], ?_, by simp [configCall, hb]⟩
    unfold reportedErrors
    cases hve : validateConfig opts with
    | nil => exact absurd hve hne
    | cons a l => simp
  · have hb : (validateConfig opts).isEmpty = true := by simp [hnil]
    refine ⟨?_, fun s hs => ?_, fun hn => ?_⟩
    · simp only [configCall, hb, if_true]
      repeat' split
      all_goals rfl
    · obtain ⟨-, hU⟩ := (validateConfig_eq_nil_iff opts).mp hnil
      rcases hU with hn | ⟨s2, hs2, hne2⟩
      · rw [hn] at hs
        exact absurd hs (by simp)
      · rw [hs2] at hs
        injection hs with hv2
        injection hv2 with hv3
        subst hv3
        have hlen : s2.length ≠ 0 :=
          fun h => hne2 ((string_length_eq_zero_iff s2).mp h)
        simp [configCall, hb, hs2, hlen]
    · simp [configCall, hb, hn]

/-- Witness for C7 at the spec's empty-string example, which is rejected
with the minLength violation and leaves the stored root in effect. -/
theorem config_call_spec_witness :
    (configCall "/tmp/images/" (.jobj [("upload_folder", .jstr "")])).1 =
      .error (.ajv [.tooShort "upload_folder"]) ∧
    (configCall "/tmp/images/" (.jobj [("upload_folder", .jstr "")])).2 =
      "/tmp/images/" := by
  have h := (config_call_spec "/tmp/images/" (.jobj [("upload_folder", .jstr "")])).2.1
    (by decide)
  refine ⟨?_, h.2.2⟩
  rw [h.1]
  rfl

/-- Witness for C6's amended theorem: every stage succeeds but the
output-directory removal fails, and the reported outcome is that cleanup
error. -/
theorem cleanup_failure_overrides_success_witness :
    (handler "/tmp/images/" sampleEvent "c1" "c2"
        { allOkOracles with rimrafOutput := .error "EBUSY" }).outcome =
      .error (.raw "EBUSY") :=
  (cleanup_failure_overrides_success "/tmp/images/" sampleEvent "c1" "c2"
    { allOkOracles with rimrafOutput := .error "EBUSY" }
    sampleManifest "photo_w800.jpg" ["photo_w400.jpg"] "EBUSY"
    (by decide) rfl rfl rfl rfl rfl (by decide) rfl
    (Or.inr ⟨rfl, rfl⟩)).1

end LambdaImageProcessor
